import Mathlib

/-!
Verification of the glow session-orchestration and streaming-log pipeline.

Shallow embedding of the Rust core:
  * `crates/glow-executors/src/types.rs`        — `TextRange`, `SuggestedEdit`
  * `crates/glow-executors/src/logs.rs`         — `NormalizedEntry`, `LogMsg`, `MsgStore`
  * `crates/glow-executors/src/executors/claude/log_processor.rs`
                                                — protocol types, `ClaudeLogProcessor`
  * `crates/glow-bridge/src/state.rs`           — `SessionState`
  * `crates/glow-bridge/src/api/feedback.rs`    — `run_feedback_session`, `cancel_feedback`

Modelling conventions:
  * JSON values (`serde_json::Value`) are modelled by the inductive `Json`; numbers are
    carried as `Int` (no claim inspects numeric payloads).
  * `serde_json::from_str::<ClaudeMessage>` is third-party library code, so the line
    decoder is a parameter `parse : String → Option ClaudeMessage` of the processing
    functions (`Ok` becomes `some`, `Err` becomes `none`; the error value is only logged
    by the Rust code).
  * Wall-clock timestamps (`chrono::Utc::now`) are an effect of the environment and are
    elided: the model's `NormalizedEntry` has no timestamp field.  No claim mentions
    timestamps.
  * Calls to `MsgStore::push`/`push_entry`/`push_error` performed by a processing
    function are collected as an ordered `List LogMsg` result, in push order.
-/

/-- Model of `serde_json::Value`. -/
inductive Json where
  | null : Json
  | bool (b : Bool) : Json
  | num (n : Int) : Json
  | str (s : String) : Json
  | arr (items : List Json) : Json
  | obj (fields : List (String × Json)) : Json

/-- `Value::get(key)`: field lookup on objects, `None` on anything else. -/
def Json.get : Json → String → Option Json
  | .obj fields, key => go fields key
  | _, _ => none
where go : List (String × Json) → String → Option Json
  | [], _ => none
  | (k, v) :: rest, key => if k = key then some v else go rest key

/-- `Value::as_str()`. -/
def Json.asStr : Json → Option String
  | .str s => some s
  | _ => none

/-- `types.rs::TextRange` (Rust fields `from`, `to`, `quoted_text`;
`from` is a Lean keyword, hence `fromPos`/`toPos`). -/
structure TextRange where
  fromPos : Nat
  toPos : Nat
  quoted_text : String
deriving DecidableEq

/-- `types.rs::SuggestedEdit`. -/
structure SuggestedEdit where
  id : String
  original_text : String
  suggested_text : String
  explanation : String
  range : TextRange
  applied : Bool
  rejected : Bool
deriving DecidableEq

/-- `logs.rs::NormalizedEntryType`. -/
inductive NormalizedEntryType where
  | UserMessage
  | AssistantMessage
  | ToolCall
  | ToolResult
  | SystemMessage
  | ErrorMessage
  | ThinkingMessage
  | SuggestedEdit
  | Progress
  | Unknown
deriving DecidableEq

/-- `logs.rs::NormalizedEntry` (timestamp elided, see header). -/
structure NormalizedEntry where
  entry_type : NormalizedEntryType
  content : String
  metadata : Option Json

/-- `NormalizedEntry::user_message`. -/
def NormalizedEntry.user_message (content : String) : NormalizedEntry :=
  { entry_type := .UserMessage, content := content, metadata := none }

/-- `NormalizedEntry::assistant_message`. -/
def NormalizedEntry.assistant_message (content : String) : NormalizedEntry :=
  { entry_type := .AssistantMessage, content := content, metadata := none }

/-- `NormalizedEntry::thinking`. -/
def NormalizedEntry.thinking (content : String) : NormalizedEntry :=
  { entry_type := .ThinkingMessage, content := content, metadata := none }

/-- `NormalizedEntry::tool_call`. -/
def NormalizedEntry.tool_call (tool_name : String) (input : Json) : NormalizedEntry :=
  { entry_type := .ToolCall, content := tool_name, metadata := some input }

/-- `NormalizedEntry::error`. -/
def NormalizedEntry.error (message : String) : NormalizedEntry :=
  { entry_type := .ErrorMessage, content := message, metadata := none }

/-- `logs.rs::LogMsg`. -/
inductive LogMsg where
  | Entry (entry : NormalizedEntry)
  | Raw (line : String)
  | Started
  | Ended
  | Error (message : String)

/-- `logs.rs::MsgStore`, reduced to its durable history.  The broadcast side
is modelled by the `StoreAction` trace that `push` emits (see below). -/
structure MsgStore where
  history : List LogMsg

/-- The two effects of `MsgStore::push`, in program order: the append to the
history vector (under the lock) and the subsequent best-effort broadcast. -/
inductive StoreAction where
  | append (msg : LogMsg)
  | broadcast (msg : LogMsg)

/-- `MsgStore::new`. -/
def MsgStore.new : MsgStore := ⟨[]⟩

/-- `MsgStore::push`: appends to history, then broadcasts.  Returns the updated
store and the ordered effects of the call. -/
def MsgStore.push (store : MsgStore) (msg : LogMsg) : MsgStore × List StoreAction :=
  (⟨store.history ++ [msg]⟩, [.append msg, .broadcast msg])

/-- `MsgStore::get_history`. -/
def MsgStore.get_history (store : MsgStore) : List LogMsg :=
  store.history

/-- Sequential composition of `push` calls (each `await store.push(...)` in turn). -/
def MsgStore.pushAll (store : MsgStore) (msgs : List LogMsg) : MsgStore :=
  msgs.foldl (fun s m => (s.push m).1) store

/-- `state.rs::SessionState`. -/
inductive SessionState where
  | Pending
  | Running
  | Completed
  | Failed
  | Cancelled
deriving DecidableEq

/-- `log_processor.rs::DeltaContent`. -/
inductive DeltaContent where
  | TextDelta (text : String)
  | ThinkingDelta (thinking : String)
  | InputJsonDelta (partial_json : String)

/-- `log_processor.rs::ContentBlockInfo` (only carried by `ContentBlockStart`,
which the processor ignores). -/
inductive ContentBlockInfo where
  | Text (text : String)
  | Thinking (thinking : String)
  | ToolUse (id : String) (name : String) (input : Json)

/-- `log_processor.rs::StreamEventData`. -/
inductive StreamEventData where
  | MessageStart (message : Option Json)
  | ContentBlockStart (index : Nat) (content_block : Option ContentBlockInfo)
  | ContentBlockDelta (index : Nat) (delta : DeltaContent)
  | ContentBlockStop (index : Nat)
  | MessageDelta (delta : Option Json) (usage : Option Json)
  | MessageStop

/-- `log_processor.rs::ContentBlock`. -/
inductive ContentBlock where
  | Text (text : String)
  | ToolUse (id : String) (name : String) (input : Json)
  | Thinking (thinking : String)

/-- `log_processor.rs::AssistantMessage` (the protocol wrapper struct, not the
normalized-entry kind). -/
structure AssistantMessage where
  content : List ContentBlock
  stop_reason : Option String

/-- `log_processor.rs::UserMessage`. -/
structure UserMessage where
  content : Option String

/-- `log_processor.rs::ClaudeMessage`.  `total_cost_usd` is an `f64` in Rust; it
is never inspected by the processor (only logged), so its value type is opaque
here (`Option Float`). -/
inductive ClaudeMessage where
  | System (subtype : Option String) (session_id : Option String)
  | User (message : Option UserMessage)
  | Assistant (message : AssistantMessage) (session_id : Option String)
  | StreamEvent (event : StreamEventData) (session_id : Option String)
  | Result (subtype : Option String) (result : Option String) (session_id : Option String)
      (total_cost_usd : Option Float) (is_error : Bool)
  | Error (message : Option String) (error : Option String)

/-- One hex digit, lower-case (as `serde_json` prints control escapes). -/
def hexDigit (n : Nat) : Char :=
  if n < 10 then Char.ofNat (48 + n) else Char.ofNat (87 + n)

/-- JSON string-character escaping as performed by `serde_json` when the
processor serializes a `SuggestedEdit` with `serde_json::to_string`. -/
def jsonEscapeChar (c : Char) : String :=
  if c = '"' then "\\\""
  else if c = '\\' then "\\\\"
  else if c.toNat = 0x08 then "\\b"
  else if c = '\t' then "\\t"
  else if c = '\n' then "\\n"
  else if c.toNat = 0x0C then "\\f"
  else if c = '\r' then "\\r"
  else if c.toNat < 32 then
    "\\u00" ++ String.mk [hexDigit (c.toNat / 16), hexDigit (c.toNat % 16)]
  else String.mk [c]

/-- A JSON string literal for `s`. -/
def jsonStr (s : String) : String :=
  "\"" ++ String.join (s.data.map jsonEscapeChar) ++ "\""

/-- `serde_json::to_string(&edit)` for a `SuggestedEdit` (camelCase field names,
struct declaration order; serialization of these field types cannot fail, so the
Rust `unwrap_or_default` never takes effect). -/
def renderSuggestedEdit (e : SuggestedEdit) : String :=
  "\x7b\"id\":" ++ jsonStr e.id ++
    ",\"originalText\":" ++ jsonStr e.original_text ++
    ",\"suggestedText\":" ++ jsonStr e.suggested_text ++
    ",\"explanation\":" ++ jsonStr e.explanation ++
    ",\"range\":\x7b\"from\":" ++ toString e.range.fromPos ++
    ",\"to\":" ++ toString e.range.toPos ++
    ",\"quotedText\":" ++ jsonStr e.range.quoted_text ++
    "\x7d,\"applied\":" ++ (if e.applied then "true" else "false") ++
    ",\"rejected\":" ++ (if e.rejected then "true" else "false") ++ "\x7d"

/-- The `LogMsg` pushed for a successfully parsed `suggest_edit` tool block
(`log_processor.rs` lines 255-263; timestamp elided). -/
def suggestedEditMsg (edit : SuggestedEdit) (input : Json) : LogMsg :=
  .Entry { entry_type := .SuggestedEdit,
           content := renderSuggestedEdit edit,
           metadata := some input }

/-- Mutable state of `log_processor.rs::ClaudeLogProcessor` (the `msg_store`
handle is externalized: pushes become the `List LogMsg` outputs below). -/
structure ClaudeLogProcessor where
  buffer : String
  current_content : String
  current_thinking : String
  suggested_edits : List SuggestedEdit
  has_streamed_content : Bool

/-- `ClaudeLogProcessor::new`. -/
def ClaudeLogProcessor.new : ClaudeLogProcessor :=
  { buffer := "", current_content := "", current_thinking := "",
    suggested_edits := [], has_streamed_content := false }

/-- `ClaudeLogProcessor::parse_suggested_edit`. -/
def parse_suggested_edit (id : String) (input : Json) :
    Except String SuggestedEdit :=
  match (input.get "original_text").bind Json.asStr with
  | none => .error "missing original_text"
  | some original_text =>
    match (input.get "suggested_text").bind Json.asStr with
    | none => .error "missing suggested_text"
    | some suggested_text =>
      .ok { id := id,
            original_text := original_text,
            suggested_text := suggested_text,
            explanation := (((input.get "explanation").bind Json.asStr)).getD "",
            range := { fromPos := 0, toPos := 0, quoted_text := "" },
            applied := false,
            rejected := false }

/-- One iteration of the `for block in message.content` loop in the
`ClaudeMessage::Assistant` arm of `handle_message`. -/
def handle_block (st : ClaudeLogProcessor) (block : ContentBlock) :
    ClaudeLogProcessor × List LogMsg :=
  match block with
  | .Text text =>
      if st.has_streamed_content then (st, [])
      else (st, [.Entry (NormalizedEntry.assistant_message text)])
  | .Thinking thinking =>
      if st.has_streamed_content then (st, [])
      else (st, [.Entry (NormalizedEntry.thinking thinking)])
  | .ToolUse id name input =>
      if name = "suggest_edit" then
        match parse_suggested_edit id input with
        | .ok edit =>
            ({ st with suggested_edits := st.suggested_edits ++ [edit] },
             [suggestedEditMsg edit input])
        | .error _ => (st, [])
      else (st, [.Entry (NormalizedEntry.tool_call name input)])

/-- The whole `for block in message.content` loop. -/
def foldBlocks : ClaudeLogProcessor → List ContentBlock →
    ClaudeLogProcessor × List LogMsg
  | st, [] => (st, [])
  | st, block :: rest =>
      let r1 := handle_block st block
      let r2 := foldBlocks r1.1 rest
      (r2.1, r1.2 ++ r2.2)

/-- `ClaudeLogProcessor::handle_message`.  Returns the updated processor state
and the messages pushed to the store, in push order. -/
def handle_message (st : ClaudeLogProcessor) (msg : ClaudeMessage) :
    ClaudeLogProcessor × List LogMsg :=
  match msg with
  | .System _ _ => (st, [])
  | .User message =>
      match message with
      | some m =>
          match m.content with
          | some content => (st, [.Entry (NormalizedEntry.user_message content)])
          | none => (st, [])
      | none => (st, [])
  | .Assistant message _ => foldBlocks st message.content
  | .StreamEvent event _ =>
      match event with
      | .ContentBlockDelta _ delta =>
          let st1 := { st with has_streamed_content := true }
          (match delta with
           | .TextDelta text =>
               { st1 with current_content := st1.current_content ++ text }
           | .ThinkingDelta thinking =>
               { st1 with current_thinking := st1.current_thinking ++ thinking }
           | .InputJsonDelta _ => st1, [])
      | .ContentBlockStop _ =>
          let p1 :=
            if st.current_thinking = "" then (st, ([] : List LogMsg))
            else ({ st with current_thinking := "", has_streamed_content := true },
                  [.Entry (NormalizedEntry.thinking st.current_thinking)])
          if p1.1.current_content = "" then p1
          else ({ p1.1 with current_content := "", has_streamed_content := true },
                p1.2 ++ [.Entry (NormalizedEntry.assistant_message p1.1.current_content)])
      | _ => (st, [])
  | .Result _ _ _ _ _ =>
      -- flush thinking (sets has_streamed_content), then content (does not),
      -- then unconditionally push Ended; the optional result text is only logged
      let p1 :=
        if st.current_thinking = "" then (st, ([] : List LogMsg))
        else ({ st with current_thinking := "", has_streamed_content := true },
              [.Entry (NormalizedEntry.thinking st.current_thinking)])
      let p2 :=
        if p1.1.current_content = "" then p1
        else ({ p1.1 with current_content := "" },
              p1.2 ++ [.Entry (NormalizedEntry.assistant_message p1.1.current_content)])
      (p2.1, p2.2 ++ [.Ended])
  | .Error message error =>
      let err_msg :=
        match message with
        | some s => s
        | none =>
          match error with
          | some s => s
          | none => "Unknown error"
      (st, [.Entry (NormalizedEntry.error err_msg)])

/-- `ClaudeLogProcessor::process_line`, parameterized by the external decoder
(`serde_json::from_str::<ClaudeMessage>`). -/
def process_line (parse : String → Option ClaudeMessage)
    (st : ClaudeLogProcessor) (line : String) : ClaudeLogProcessor × List LogMsg :=
  match parse line with
  | some msg => handle_message st msg
  | none => (st, [.Raw line])

/-- Whitespace class used by `str::trim`: Rust's `char::is_whitespace`, i.e.
the Unicode White_Space property — U+0009..U+000D, U+0020, U+0085 (NEL),
U+00A0 (NBSP), U+1680, U+2000..U+200A, U+2028, U+2029, U+202F, U+205F,
U+3000. -/
def isWs (c : Char) : Bool :=
  let n := c.toNat
  (0x09 ≤ n && n ≤ 0x0D) || n = 0x20 || n = 0x85 || n = 0xA0 || n = 0x1680 ||
    (0x2000 ≤ n && n ≤ 0x200A) || n = 0x2028 || n = 0x2029 || n = 0x202F ||
    n = 0x205F || n = 0x3000

/-- `str::trim` on a character list. -/
def trimChars (cs : List Char) : List Char :=
  ((cs.dropWhile isWs).reverse.dropWhile isWs).reverse

/-- Split a character buffer at newline delimiters: the complete (newline
terminated) lines, in order, and the trailing remainder (which contains no
newline).  This is the loop structure of `process_chunk`. -/
def splitLines : List Char → List (List Char) × List Char
  | [] => ([], [])
  | c :: cs =>
      let r := splitLines cs
      if c = '\n' then ([] :: r.1, r.2)
      else
        match r.1 with
        | l :: ls => ((c :: l) :: ls, r.2)
        | [] => ([], c :: r.2)

/-- The body of the `while let Some(newline_pos)` loop of `process_chunk`:
process each complete line (trimmed; empty lines skipped). -/
def processLines (parse : String → Option ClaudeMessage) :
    ClaudeLogProcessor → List (List Char) → ClaudeLogProcessor × List LogMsg
  | st, [] => (st, [])
  | st, line :: rest =>
      let t := trimChars line
      if t = [] then processLines parse st rest
      else
        let r1 := process_line parse st (String.mk t)
        let r2 := processLines parse r1.1 rest
        (r2.1, r1.2 ++ r2.2)

/-- `ClaudeLogProcessor::process_chunk`: append the chunk to the buffer,
process every complete line, keep the trailing partial line buffered. -/
def process_chunk (parse : String → Option ClaudeMessage)
    (st : ClaudeLogProcessor) (chunk : String) : ClaudeLogProcessor × List LogMsg :=
  let split := splitLines (st.buffer ++ chunk).data
  let r := processLines parse { st with buffer := "" } split.1
  ({ r.1 with buffer := String.mk split.2 }, r.2)

/-- The `if !self.current_thinking.is_empty()` step of `flush`: drain the
thinking accumulator into a ThinkingMessage entry. -/
def drainThinking (p : ClaudeLogProcessor × List LogMsg) :
    ClaudeLogProcessor × List LogMsg :=
  if p.1.current_thinking = "" then p
  else ({ p.1 with current_thinking := "" },
        p.2 ++ [.Entry (NormalizedEntry.thinking p.1.current_thinking)])

/-- The `if !self.current_content.is_empty()` step of `flush`: drain the
content accumulator into an AssistantMessage entry. -/
def drainContent (p : ClaudeLogProcessor × List LogMsg) :
    ClaudeLogProcessor × List LogMsg :=
  if p.1.current_content = "" then p
  else ({ p.1 with current_content := "" },
        p.2 ++ [.Entry (NormalizedEntry.assistant_message p.1.current_content)])

/-- `ClaudeLogProcessor::flush`: one final decode attempt on the buffered
partial line (the buffer is taken, i.e. emptied, first), then drain the
thinking and content accumulators. -/
def ClaudeLogProcessor.flush (parse : String → Option ClaudeMessage)
    (st : ClaudeLogProcessor) : ClaudeLogProcessor × List LogMsg :=
  drainContent (drainThinking
    (if st.buffer = "" then (st, ([] : List LogMsg))
     else process_line parse { st with buffer := "" } st.buffer))

/-- Outcome of `cmd.spawn()` and the subsequent `child.wait()` in
`run_feedback_session`: either the child spawned (with its stdout lines and
`status.map(success)`, where `none` models a failed `wait`), or spawning
failed with an error message. -/
inductive SpawnResult where
  | ok (stdout_lines : List String) (exit_success : Option Bool)
  | err (e : String)

/-- One observable step of `run_feedback_session`: an assignment to
`session.state` or a push to the session's message store. -/
inductive RunEvent where
  | setState (s : SessionState)
  | pushMsg (msg : LogMsg)

/-- The state written by `run_feedback_session` after `child.wait()`:
`status.map(success).unwrap_or(false)` selects Completed, otherwise Failed.
Note it does not depend on the session's previous state. -/
def runner_finish_state (exit_success : Option Bool) : SessionState :=
  match exit_success with
  | some true => SessionState.Completed
  | _ => SessionState.Failed

/-- The stdout loop of `run_feedback_session`: for each line read,
`process_chunk(line)` then `process_chunk("\n")`. -/
def processStdout (parse : String → Option ClaudeMessage) :
    ClaudeLogProcessor → List String → ClaudeLogProcessor × List LogMsg
  | st, [] => (st, [])
  | st, line :: rest =>
      let r1 := process_chunk parse st line
      let r2 := process_chunk parse r1.1 "\n"
      let r3 := processStdout parse r2.1 rest
      (r3.1, r1.2 ++ r2.2 ++ r3.2)

/-- `feedback.rs::run_feedback_session`, as the ordered trace of its state
assignments and store pushes.  The function first sets the session state to
Running (before attempting the spawn); on spawn success it feeds stdout
through the processor, flushes, and finally assigns Completed/Failed from the
exit status; on spawn failure it assigns Failed and pushes an `Error` LogMsg. -/
def run_feedback_session (parse : String → Option ClaudeMessage)
    (spawn : SpawnResult) : List RunEvent :=
  RunEvent.setState SessionState.Running ::
    match spawn with
    | .ok lines exit_success =>
        let r1 := processStdout parse ClaudeLogProcessor.new lines
        let r2 := ClaudeLogProcessor.flush parse r1.1
        ((r1.2 ++ r2.2).map RunEvent.pushMsg) ++
          [RunEvent.setState (runner_finish_state exit_success)]
    | .err e => [RunEvent.setState SessionState.Failed, RunEvent.pushMsg (LogMsg.Error e)]

/-- The state effect of the `DELETE /{id}` handler `feedback.rs::cancel_feedback`:
it write-locks the session and assigns `SessionState::Cancelled`
unconditionally, regardless of the current state. -/
def cancel_feedback (_current : SessionState) : SessionState :=
  SessionState.Cancelled

/-- The sequence of session states assigned by a run trace. -/
def setStates (events : List RunEvent) : List SessionState :=
  events.filterMap fun ev =>
    match ev with
    | .setState s => some s
    | .pushMsg _ => none

/-- Is this message a normalized entry of kind AssistantMessage or
ThinkingMessage?  (The kinds gated by `has_streamed_content`.) -/
def isTextOrThinking (msg : LogMsg) : Bool :=
  match msg with
  | .Entry e =>
      match e.entry_type with
      | .AssistantMessage => true
      | .ThinkingMessage => true
      | _ => false
  | _ => false

/-- The AssistantMessage/ThinkingMessage entries of an output. -/
def textThinkingEntries (msgs : List LogMsg) : List LogMsg :=
  msgs.filter isTextOrThinking

/-- The messages of an output that are not AssistantMessage/ThinkingMessage
entries (for Assistant-record handling these are exactly the tool entries). -/
def otherEntries (msgs : List LogMsg) : List LogMsg :=
  msgs.filter fun m => !(isTextOrThinking m)

/-- Is this message `LogMsg::Ended`? -/
def isEnded (msg : LogMsg) : Bool :=
  match msg with
  | .Ended => true
  | _ => false

/-- The entry a text or thinking block contributes when no streamed deltas were
seen this turn (`has_streamed_content = false`); tool-use blocks are handled
separately (`toolEntryOf`). -/
def fallbackEntry (block : ContentBlock) : Option LogMsg :=
  match block with
  | .Text text => some (.Entry (NormalizedEntry.assistant_message text))
  | .Thinking thinking => some (.Entry (NormalizedEntry.thinking thinking))
  | .ToolUse _ _ _ => none

/-- The entry a tool-use block contributes, independent of
`has_streamed_content`: a `SuggestedEdit` entry for a valid `suggest_edit`
call, nothing for an invalid one, a `ToolCall` entry for any other tool. -/
def toolEntryOf (block : ContentBlock) : Option LogMsg :=
  match block with
  | .ToolUse id name input =>
      if name = "suggest_edit" then
        match parse_suggested_edit id input with
        | .ok edit => some (suggestedEditMsg edit input)
        | .error _ => none
      else some (.Entry (NormalizedEntry.tool_call name input))
  | _ => none

/-- Concatenation of a list of strings in order (the coalescing of streamed
deltas). -/
def strConcat : List String → String
  | [] => ""
  | s :: rest => s ++ strConcat rest

/-- A protocol text-delta stream event. -/
def mkTextDelta (text : String) : ClaudeMessage :=
  .StreamEvent (.ContentBlockDelta 0 (.TextDelta text)) none

/-- A protocol content-block-stop stream event. -/
def blockStopMsg : ClaudeMessage :=
  .StreamEvent (.ContentBlockStop 0) none

/-- Handle a list of already-decoded protocol messages in order, collecting
all pushes. -/
def handleMessages : ClaudeLogProcessor → List ClaudeMessage →
    ClaudeLogProcessor × List LogMsg
  | st, [] => (st, [])
  | st, msg :: rest =>
      let r1 := handle_message st msg
      let r2 := handleMessages r1.1 rest
      (r2.1, r1.2 ++ r2.2)

/-- `input.get(key).and_then(as_str)`: the string-typed field `key` of `input`. -/
def strField (input : Json) (key : String) : Option String :=
  (input.get key).bind Json.asStr

lemma MsgStore.pushAll_history (msgs : List LogMsg) :
    ∀ store : MsgStore, (store.pushAll msgs).history = store.history ++ msgs := by
  induction msgs with
  | nil => intro store; simp [MsgStore.pushAll]
  | cons m rest ih =>
      intro store
      simp only [MsgStore.pushAll, List.foldl] at *
      rw [ih]
      simp [MsgStore.push]

/-- Claim C8: after any sequence of N pushes, `get_history` returns exactly
those N messages in push order, and each `push` appends the message to the
history before broadcasting it. -/
theorem push_order_and_history :
    (∀ msgs : List LogMsg, (MsgStore.new.pushAll msgs).get_history = msgs) ∧
    (∀ (store : MsgStore) (msg : LogMsg),
      (store.push msg).2 = [StoreAction.append msg, StoreAction.broadcast msg] ∧
      (store.push msg).1.get_history = store.get_history ++ [msg]) := by
  constructor
  · intro msgs
    simp [MsgStore.get_history, MsgStore.pushAll_history, MsgStore.new]
  · intro store msg
    exact ⟨rfl, rfl⟩

lemma setStates_pushMsgs (f : RunEvent → Option SessionState)
    (h : ∀ m, f (RunEvent.pushMsg m) = none) (msgs : List LogMsg) :
    List.filterMap (f ∘ RunEvent.pushMsg) msgs = [] := by
  induction msgs with
  | nil => rfl
  | cons m rest ih => simp [h, ih]

/-- Claim C1 (counterexample): a cancel request on a session already observed
as Completed changes its state to Cancelled, so Completed is not terminal. -/
theorem cancel_overrides_completed :
    cancel_feedback SessionState.Completed = SessionState.Cancelled ∧
    SessionState.Cancelled ≠ SessionState.Completed :=
  ⟨rfl, by decide⟩

/-- Claim C1 (amended): neither state-writing operation guards on the current
state.  A cancel request yields Cancelled from every state (including
Completed/Failed), and the session runner's state assignments are Running
followed by Completed/Failed chosen solely from the spawn/exit outcome
(overwriting a Cancelled state set concurrently). -/
theorem cancel_and_finish_ignore_prior_state :
    (∀ s : SessionState, cancel_feedback s = SessionState.Cancelled) ∧
    (∀ (parse : String → Option ClaudeMessage) (lines : List String)
       (exit_success : Option Bool),
      setStates (run_feedback_session parse (SpawnResult.ok lines exit_success)) =
        [SessionState.Running, runner_finish_state exit_success]) ∧
    (∀ (parse : String → Option ClaudeMessage) (e : String),
      setStates (run_feedback_session parse (SpawnResult.err e)) =
        [SessionState.Running, SessionState.Failed]) := by
  refine ⟨fun _ => rfl, ?_, fun parse e => rfl⟩
  intro parse lines exit_success
  simp [run_feedback_session, setStates]
  rw [setStates_pushMsgs _ (fun _ => rfl), setStates_pushMsgs _ (fun _ => rfl)]
  simp

/-- Claim C2 (counterexample): on spawn failure the trace of
`run_feedback_session` does pass through Running — the state is set to Running
before the spawn is attempted, contradicting "never in state Running". -/
theorem spawn_failure_trace_enters_running :
    run_feedback_session (fun _ => none) (SpawnResult.err "boom") =
      [RunEvent.setState SessionState.Running,
       RunEvent.setState SessionState.Failed,
       RunEvent.pushMsg (LogMsg.Error "boom")] ∧
    RunEvent.setState SessionState.Running ∈
      run_feedback_session (fun _ => none) (SpawnResult.err "boom") :=
  ⟨rfl, List.Mem.head _⟩

/-- Claim C2 (amended): on spawn failure the orchestrator sets the session
state to Failed and pushes an `Error` LogMsg carrying the spawn error — but
only after having set the state to Running at the start of the run, so the
session does transition through Running. -/
theorem spawn_failure_sets_failed_and_pushes_error
    (parse : String → Option ClaudeMessage) (e : String) :
    run_feedback_session parse (SpawnResult.err e) =
      [RunEvent.setState SessionState.Running,
       RunEvent.setState SessionState.Failed,
       RunEvent.pushMsg (LogMsg.Error e)] :=
  rfl

/-- Claim C10: `parse_suggested_edit` succeeds exactly when both
`original_text` and `suggested_text` are present as strings; a missing
`explanation` defaults to the empty string; and every edit it produces has
range `{from: 0, to: 0, quoted_text: ""}`, `applied = false`,
`rejected = false`. -/
theorem parse_suggested_edit_spec (id : String) (input : Json) :
    ((∃ e, parse_suggested_edit id input = .ok e) ↔
      (strField input "original_text").isSome ∧
      (strField input "suggested_text").isSome) ∧
    (∀ e, parse_suggested_edit id input = .ok e →
      e.id = id ∧
      strField input "original_text" = some e.original_text ∧
      strField input "suggested_text" = some e.suggested_text ∧
      e.explanation = (strField input "explanation").getD "" ∧
      e.range = ⟨0, 0, ""⟩ ∧ e.applied = false ∧ e.rejected = false) := by
  unfold parse_suggested_edit strField
  cases h1 : (input.get "original_text").bind Json.asStr with
  | none => simp [h1]
  | some o =>
      cases h2 : (input.get "suggested_text").bind Json.asStr with
      | none => simp [h1, h2]
      | some s =>
          simp only [h1, h2, Option.isSome_some, and_self, iff_true]
          constructor
          · exact ⟨_, rfl⟩
          · intro e he
            cases he
            simp

/-- Witness for C10 at a concrete tool input: both text fields present, no
explanation; the parse succeeds and the produced edit has the default range,
flags and explanation. -/
theorem parse_suggested_edit_spec_witness :
    ∃ e, parse_suggested_edit "edit-1"
        (Json.obj [("original_text", Json.str "Hello world"),
                   ("suggested_text", Json.str "Hello, world!")]) = Except.ok e ∧
      e.range = ⟨0, 0, ""⟩ ∧ e.applied = false ∧ e.rejected = false ∧
      e.explanation = "" := by
  have h := (parse_suggested_edit_spec "edit-1"
      (Json.obj [("original_text", Json.str "Hello world"),
                 ("suggested_text", Json.str "Hello, world!")])).2
      { id := "edit-1", original_text := "Hello world",
        suggested_text := "Hello, world!", explanation := "",
        range := ⟨0, 0, ""⟩, applied := false, rejected := false } rfl
  exact ⟨_, rfl, h.2.2.2.2.1, h.2.2.2.2.2.1, h.2.2.2.2.2.2, h.2.2.2.1⟩

/-- Claim C4: a `Result` record first flushes any non-empty thinking and
content accumulators (in that order), then pushes exactly one `Ended` LogMsg —
the output does not depend on `is_error`, and both accumulators end empty. -/
theorem result_flushes_then_ends_once
    (st : ClaudeLogProcessor) (subtype result sid : Option String)
    (cost : Option Float) (is_error : Bool) :
    (handle_message st (.Result subtype result sid cost is_error)).2 =
      (if st.current_thinking = "" then []
       else [LogMsg.Entry (NormalizedEntry.thinking st.current_thinking)]) ++
      (if st.current_content = "" then []
       else [LogMsg.Entry (NormalizedEntry.assistant_message st.current_content)]) ++
      [LogMsg.Ended] ∧
    ((handle_message st (.Result subtype result sid cost is_error)).2.filter
        isEnded).length = 1 ∧
    (handle_message st (.Result subtype result sid cost is_error)).1.current_thinking
      = "" ∧
    (handle_message st (.Result subtype result sid cost is_error)).1.current_content
      = "" := by
  by_cases ht : st.current_thinking = "" <;>
    by_cases hc : st.current_content = "" <;>
      simp [handle_message, ht, hc, isEnded, List.filter]

lemma handle_block_flag (st : ClaudeLogProcessor) (b : ContentBlock) :
    (handle_block st b).1.has_streamed_content = st.has_streamed_content := by
  cases b with
  | Text t => by_cases h : st.has_streamed_content <;> simp [handle_block, h]
  | Thinking t => by_cases h : st.has_streamed_content <;> simp [handle_block, h]
  | ToolUse id name input =>
      simp only [handle_block]
      split
      · cases hp : parse_suggested_edit id input <;> simp [hp]
      · rfl

lemma handle_block_filterTT (st : ClaudeLogProcessor) (b : ContentBlock) :
    (handle_block st b).2.filter isTextOrThinking =
      if st.has_streamed_content then [] else (fallbackEntry b).toList := by
  cases b with
  | Text t =>
      by_cases h : st.has_streamed_content <;>
        simp [handle_block, h, fallbackEntry, isTextOrThinking,
          NormalizedEntry.assistant_message]
  | Thinking t =>
      by_cases h : st.has_streamed_content <;>
        simp [handle_block, h, fallbackEntry, isTextOrThinking, NormalizedEntry.thinking]
  | ToolUse id name input =>
      simp only [handle_block, fallbackEntry]
      split
      · cases hp : parse_suggested_edit id input <;>
          simp [hp, suggestedEditMsg, isTextOrThinking]
      · simp [isTextOrThinking, NormalizedEntry.tool_call]

lemma handle_block_filterOther (st : ClaudeLogProcessor) (b : ContentBlock) :
    (handle_block st b).2.filter (fun m => !(isTextOrThinking m)) =
      (toolEntryOf b).toList := by
  cases b with
  | Text t =>
      by_cases h : st.has_streamed_content <;>
        simp [handle_block, h, toolEntryOf, isTextOrThinking,
          NormalizedEntry.assistant_message]
  | Thinking t =>
      by_cases h : st.has_streamed_content <;>
        simp [handle_block, h, toolEntryOf, isTextOrThinking, NormalizedEntry.thinking]
  | ToolUse id name input =>
      simp only [handle_block, toolEntryOf]
      split
      · cases hp : parse_suggested_edit id input <;>
          simp [hp, suggestedEditMsg, isTextOrThinking]
      · simp [isTextOrThinking, NormalizedEntry.tool_call]

lemma foldBlocks_filterTT (blocks : List ContentBlock) :
    ∀ st : ClaudeLogProcessor,
      (foldBlocks st blocks).2.filter isTextOrThinking =
        if st.has_streamed_content then [] else blocks.filterMap fallbackEntry := by
  induction blocks with
  | nil => intro st; simp [foldBlocks]
  | cons b rest ih =>
      intro st
      simp only [foldBlocks, List.filter_append]
      rw [handle_block_filterTT, ih, handle_block_flag]
      by_cases h : st.has_streamed_content
      · simp [h]
      · cases fb : fallbackEntry b <;> simp [h, fb]

lemma foldBlocks_filterOther (blocks : List ContentBlock) :
    ∀ st : ClaudeLogProcessor,
      (foldBlocks st blocks).2.filter (fun m => !(isTextOrThinking m)) =
        blocks.filterMap toolEntryOf := by
  induction blocks with
  | nil => intro st; simp [foldBlocks]
  | cons b rest ih =>
      intro st
      simp only [foldBlocks, List.filter_append]
      rw [handle_block_filterOther, ih]
      cases tb : toolEntryOf b <;> simp [tb]

/-- Claim C5: the AssistantMessage/ThinkingMessage entries emitted for an
`Assistant` record are empty when `has_streamed_content` is true, and are
exactly one entry per text block (an AssistantMessage with that text) and one
per thinking block (a ThinkingMessage) when it is false. -/
theorem assistant_text_thinking_gated_by_streamed_flag
    (st : ClaudeLogProcessor) (message : AssistantMessage) (sid : Option String) :
    textThinkingEntries (handle_message st (.Assistant message sid)).2 =
      if st.has_streamed_content then []
      else message.content.filterMap fallbackEntry := by
  simp only [handle_message, textThinkingEntries]
  exact foldBlocks_filterTT message.content st

/-- Claim C9 (counterexample): a `suggest_edit` tool-use block whose input
lacks `original_text` produces no entry at all — neither a SuggestedEdit nor a
ToolCall entry — whether `has_streamed_content` is true or false.  So not
every tool-use block produces an entry. -/
theorem invalid_suggest_edit_block_emits_nothing :
    (handle_message { ClaudeLogProcessor.new with has_streamed_content := true }
        (.Assistant ⟨[ContentBlock.ToolUse "tool-1" "suggest_edit" (Json.obj [])], none⟩
          none)).2 = [] ∧
    (handle_message ClaudeLogProcessor.new
        (.Assistant ⟨[ContentBlock.ToolUse "tool-1" "suggest_edit" (Json.obj [])], none⟩
          none)).2 = [] :=
  ⟨rfl, rfl⟩

/-- Claim C9 (amended): the entries an `Assistant` record emits for its
tool-use blocks are a function of the blocks alone — independent of
`has_streamed_content` (which gates only text and thinking blocks): a valid
`suggest_edit` block yields its SuggestedEdit entry, an invalid one yields no
entry, and any other tool name yields its ToolCall entry. -/
theorem tool_blocks_independent_of_streamed_flag
    (st : ClaudeLogProcessor) (message : AssistantMessage) (sid : Option String) :
    otherEntries (handle_message st (.Assistant message sid)).2 =
      message.content.filterMap toolEntryOf := by
  simp only [handle_message, otherEntries]
  exact foldBlocks_filterOther message.content st

lemma handleMessages_append (xs ys : List ClaudeMessage) :
    ∀ st : ClaudeLogProcessor,
      handleMessages st (xs ++ ys) =
        ((handleMessages (handleMessages st xs).1 ys).1,
         (handleMessages st xs).2 ++ (handleMessages (handleMessages st xs).1 ys).2) := by
  induction xs with
  | nil => intro st; simp [handleMessages]
  | cons x rest ih =>
      intro st
      simp only [List.cons_append, handleMessages, List.append_eq]
      rw [ih]
      simp [List.append_assoc]

lemma handleMessages_textDeltas (deltas : List String) :
    ∀ st : ClaudeLogProcessor,
      handleMessages st (deltas.map mkTextDelta) =
        ({ st with current_content := st.current_content ++ strConcat deltas,
                   has_streamed_content :=
                     st.has_streamed_content || !deltas.isEmpty }, []) := by
  induction deltas with
  | nil => intro st; simp [handleMessages, strConcat]
  | cons d rest ih =>
      intro st
      simp only [List.map_cons, handleMessages, handle_message, mkTextDelta]
      rw [ih]
      simp [strConcat, String.append_assoc]

/-- Claim C6: a run of text deltas followed by a `ContentBlockStop`, starting
with an empty content accumulator, emits exactly one AssistantMessage entry
whose content is the concatenation of the deltas in arrival order (provided
that concatenation is non-empty, i.e. some text was actually streamed); if the
thinking accumulator is also non-empty at block-stop, a ThinkingMessage entry
is emitted before the AssistantMessage; both accumulators end empty. -/
theorem delta_coalescing_single_entry
    (st : ClaudeLogProcessor) (deltas : List String)
    (hc : st.current_content = "") (hne : strConcat deltas ≠ "") :
    (handleMessages st (deltas.map mkTextDelta ++ [blockStopMsg])).2 =
      (if st.current_thinking = "" then []
       else [LogMsg.Entry (NormalizedEntry.thinking st.current_thinking)]) ++
      [LogMsg.Entry (NormalizedEntry.assistant_message (strConcat deltas))] ∧
    (handleMessages st (deltas.map mkTextDelta ++ [blockStopMsg])).1.current_content
      = "" ∧
    (handleMessages st (deltas.map mkTextDelta ++ [blockStopMsg])).1.current_thinking
      = "" := by
  rw [handleMessages_append, handleMessages_textDeltas]
  by_cases ht : st.current_thinking = "" <;>
    simp [handleMessages, handle_message, blockStopMsg, ht, hc, hne]

/-- Witness for C6: deltas "Hel", "lo" then a block-stop, with thinking "why"
pending, yield exactly the ThinkingMessage and then one AssistantMessage with
content "Hello". -/
theorem delta_coalescing_single_entry_witness :
    strConcat ["Hel", "lo"] = "Hello" ∧
    (handleMessages { ClaudeLogProcessor.new with current_thinking := "why" }
        (["Hel", "lo"].map mkTextDelta ++ [blockStopMsg])).2 =
      [LogMsg.Entry (NormalizedEntry.thinking "why"),
       LogMsg.Entry (NormalizedEntry.assistant_message "Hello")] := by
  have h := delta_coalescing_single_entry
      { ClaudeLogProcessor.new with current_thinking := "why" } ["Hel", "lo"]
      rfl (by decide)
  refine ⟨rfl, ?_⟩
  rw [h.1]
  rfl

lemma handle_block_buffer (st : ClaudeLogProcessor) (b : ContentBlock) :
    (handle_block st b).1.buffer = st.buffer := by
  cases b with
  | Text t => by_cases h : st.has_streamed_content <;> simp [handle_block, h]
  | Thinking t => by_cases h : st.has_streamed_content <;> simp [handle_block, h]
  | ToolUse id name input =>
      simp only [handle_block]
      split
      · cases hp : parse_suggested_edit id input <;> simp [hp]
      · rfl

lemma foldBlocks_buffer (blocks : List ContentBlock) :
    ∀ st : ClaudeLogProcessor, (foldBlocks st blocks).1.buffer = st.buffer := by
  induction blocks with
  | nil => intro st; rfl
  | cons b rest ih =>
      intro st
      simp only [foldBlocks]
      rw [ih, handle_block_buffer]

lemma handle_message_buffer (st : ClaudeLogProcessor) (msg : ClaudeMessage) :
    (handle_message st msg).1.buffer = st.buffer := by
  cases msg with
  | System _ _ => rfl
  | User message =>
      cases message with
      | none => rfl
      | some m => cases hm : m.content <;> simp [handle_message, hm]
  | Assistant message _ => simp only [handle_message]; exact foldBlocks_buffer _ st
  | StreamEvent event _ =>
      cases event with
      | ContentBlockDelta _ delta => cases delta <;> simp [handle_message]
      | ContentBlockStop _ =>
          by_cases ht : st.current_thinking = "" <;>
            by_cases hcc : st.current_content = "" <;>
              simp [handle_message, ht, hcc]
      | MessageStart _ => rfl
      | ContentBlockStart _ _ => rfl
      | MessageDelta _ _ => rfl
      | MessageStop => rfl
  | Result _ _ _ _ _ =>
      by_cases ht : st.current_thinking = "" <;>
        by_cases hcc : st.current_content = "" <;>
          simp [handle_message, ht, hcc]
  | Error _ _ => rfl

lemma process_line_buffer (parse : String → Option ClaudeMessage)
    (st : ClaudeLogProcessor) (line : String) :
    (process_line parse st line).1.buffer = st.buffer := by
  cases h : parse line <;> simp [process_line, h, handle_message_buffer]

lemma drainThinking_buffer (p : ClaudeLogProcessor × List LogMsg) :
    (drainThinking p).1.buffer = p.1.buffer := by
  by_cases h : p.1.current_thinking = "" <;> simp [drainThinking, h]

lemma drainThinking_thinking (p : ClaudeLogProcessor × List LogMsg) :
    (drainThinking p).1.current_thinking = "" := by
  by_cases h : p.1.current_thinking = "" <;> simp [drainThinking, h]

lemma drainThinking_of_empty (p : ClaudeLogProcessor × List LogMsg)
    (h : p.1.current_thinking = "") : drainThinking p = p := by
  simp [drainThinking, h]

lemma drainContent_buffer (p : ClaudeLogProcessor × List LogMsg) :
    (drainContent p).1.buffer = p.1.buffer := by
  by_cases h : p.1.current_content = "" <;> simp [drainContent, h]

lemma drainContent_thinking (p : ClaudeLogProcessor × List LogMsg) :
    (drainContent p).1.current_thinking = p.1.current_thinking := by
  by_cases h : p.1.current_content = "" <;> simp [drainContent, h]

lemma drainContent_content (p : ClaudeLogProcessor × List LogMsg) :
    (drainContent p).1.current_content = "" := by
  by_cases h : p.1.current_content = "" <;> simp [drainContent, h]

lemma drainContent_of_empty (p : ClaudeLogProcessor × List LogMsg)
    (h : p.1.current_content = "") : drainContent p = p := by
  simp [drainContent, h]

lemma flush_state (parse : String → Option ClaudeMessage) (st : ClaudeLogProcessor) :
    (ClaudeLogProcessor.flush parse st).1.buffer = "" ∧
    (ClaudeLogProcessor.flush parse st).1.current_thinking = "" ∧
    (ClaudeLogProcessor.flush parse st).1.current_content = "" := by
  have h1 : (if st.buffer = "" then (st, ([] : List LogMsg))
      else process_line parse { st with buffer := "" } st.buffer).1.buffer = "" := by
    by_cases hb : st.buffer = "" <;> simp [hb, process_line_buffer]
  refine ⟨?_, ?_, ?_⟩
  · simp only [ClaudeLogProcessor.flush]
    rw [drainContent_buffer, drainThinking_buffer]
    exact h1
  · simp only [ClaudeLogProcessor.flush]
    rw [drainContent_thinking, drainThinking_thinking]
  · simp only [ClaudeLogProcessor.flush]
    rw [drainContent_content]

/-- Claim C7: a second `flush` with no input in between emits nothing and does
not change the processor state: the first flush leaves the line buffer and
both accumulators empty. -/
theorem flush_twice_emits_nothing (parse : String → Option ClaudeMessage)
    (st : ClaudeLogProcessor) :
    ClaudeLogProcessor.flush parse (ClaudeLogProcessor.flush parse st).1 =
      ((ClaudeLogProcessor.flush parse st).1, []) := by
  obtain ⟨hb, ht, hc⟩ := flush_state parse st
  set st1 := (ClaudeLogProcessor.flush parse st).1 with hst1
  show ClaudeLogProcessor.flush parse st1 = (st1, [])
  rw [ClaudeLogProcessor.flush.eq_def, if_pos hb,
    drainThinking_of_empty (st1, []) ht, drainContent_of_empty (st1, []) hc]

/-- Claim C3 (counterexample): the line " x " (not valid protocol JSON) is
pushed as `Raw "x"` — the *trimmed* line, not the original line character for
character. -/
theorem raw_line_is_trimmed_not_verbatim :
    (process_chunk (fun _ => none) ClaudeLogProcessor.new " x \n").2 =
      [LogMsg.Raw "x"] ∧
    "x" ≠ " x " :=
  ⟨rfl, by decide⟩

lemma splitLines_append (l : List Char) (cs : List Char) (h : '\n' ∉ l) :
    splitLines (l ++ '\n' :: cs) = (l :: (splitLines cs).1, (splitLines cs).2) := by
  induction l with
  | nil => simp [splitLines]
  | cons c l ih =>
      have hc : c ≠ '\n' := fun e => h (e ▸ List.mem_cons_self _ _)
      have h' : '\n' ∉ l := fun m => h (List.mem_cons_of_mem _ m)
      simp only [List.cons_append, splitLines, List.append_eq]
      rw [ih h']
      simp [hc]

/-- Claim C3 (amended): for any input line (no interior newline) whose trimmed
text is non-empty and fails to decode, `process_chunk` appends exactly one
`Raw` LogMsg containing the *trimmed* line, leaves the processor state
unchanged by that line, and processes the subsequent input exactly as it would
have without the bad line. -/
theorem bad_line_pushes_one_trimmed_raw_and_continues
    (parse : String → Option ClaudeMessage) (st : ClaudeLogProcessor)
    (line rest : String)
    (hbuf : st.buffer = "")
    (hnl : '\n' ∉ line.data)
    (hne : trimChars line.data ≠ [])
    (hparse : parse (String.mk (trimChars line.data)) = none) :
    process_chunk parse st (line ++ "\n" ++ rest) =
      ((process_chunk parse st rest).1,
       LogMsg.Raw (String.mk (trimChars line.data)) ::
         (process_chunk parse st rest).2) := by
  have hst : ({ st with buffer := "" } : ClaudeLogProcessor) = st := by
    rw [← hbuf]
  have hdata : (st.buffer ++ (line ++ "\n" ++ rest)).data =
      line.data ++ '\n' :: rest.data := by
    rw [hbuf]
    simp [String.data_append]
  have hdata2 : (st.buffer ++ rest).data = rest.data := by
    rw [hbuf]
    simp [String.data_append]
  simp only [process_chunk]
  rw [hdata, hdata2, splitLines_append _ _ hnl]
  simp only [processLines, hne, if_false, hst]
  simp only [process_line, hparse]
  simp

/-- Witness for the amended C3 at a concrete bad line: feeding "not json"
followed by a newline pushes exactly one `Raw "not json"` and leaves the
processor as if only the remaining (empty) input had been processed. -/
theorem bad_line_pushes_one_trimmed_raw_and_continues_witness :
    ClaudeLogProcessor.new.buffer = "" ∧
    trimChars "not json".data ≠ [] ∧
    process_chunk (fun _ => none) ClaudeLogProcessor.new ("not json" ++ "\n" ++ "") =
      ((process_chunk (fun _ => none) ClaudeLogProcessor.new "").1,
       LogMsg.Raw (String.mk (trimChars "not json".data)) ::
         (process_chunk (fun _ => none) ClaudeLogProcessor.new "").2) :=
  ⟨rfl, by decide,
    bad_line_pushes_one_trimmed_raw_and_continues (fun _ => none)
      ClaudeLogProcessor.new "not json" "" rfl (by decide) (by decide) rfl⟩
